import Mathlib

/-!
# Verification of the leveraged-DCA backtester (Onigam/kong)

Shallow embedding of the core of `src/utils.ts` and `src/index.ts` (the
direction-aware variant, which imports the helpers from `utils.ts`).
JavaScript numbers are modelled as rationals (`ℚ`); all the properties at
stake are exact-arithmetic facts.  Fallible evaluation — a JavaScript
`TypeError` from reading a property of `undefined` after an out-of-bounds
array access, which aborts the whole run — is modelled with `Option`:
`none` is the aborted run.  Division by zero (a `NaN`/`Infinity` source in
JavaScript) follows the Lean convention `x / 0 = 0`; no claim proved below
depends on the value of a division by zero except where explicitly
hypothesised away.
-/

namespace Kong

/-- One OHLC record (`PriceData` in `src/types.ts` / `index.ts`).  The field
`open` is a Lean keyword, hence `open_`. -/
structure PriceData where
  timestamp : Int
  open_ : ℚ
  high : ℚ
  low : ℚ
  close : ℚ
deriving DecidableEq, Repr

/-! ## `src/utils.ts` -/

/-- `calculateRemainingAmount` (utils.ts line 3). -/
def calculateRemainingAmount (profitOrLoss buyAmount : ℚ) : ℚ :=
  profitOrLoss + buyAmount

/-- `calculateExitSoldInUSD` (utils.ts line 10). -/
def calculateExitSoldInUSD (btcBought : ℚ) (profitTaken : Bool)
    (profitLimitPrice : ℚ) (exitCandle : PriceData) : ℚ :=
  btcBought * (if profitTaken then profitLimitPrice else exitCandle.close)

/-- `calculateProfitOrLoss` (utils.ts line 19). -/
def calculateProfitOrLoss (exitSoldAmountInUSD btcBought entryPrice : ℚ)
    (long : Bool) : ℚ :=
  if long then exitSoldAmountInUSD - btcBought * entryPrice
  else btcBought * entryPrice - exitSoldAmountInUSD

/-- `calculateLiquidationPrice` (utils.ts line 48). -/
def calculateLiquidationPrice (entryPrice leverage : ℚ) (long : Bool) : ℚ :=
  let distance := 100 / leverage
  let distanceInDollars := (distance / 100) * entryPrice
  if long then entryPrice - distanceInDollars else entryPrice + distanceInDollars

/-- `calculateProfitLimit` (utils.ts line 80). -/
def calculateProfitLimit (entryPrice profitInPercent leverage : ℚ)
    (long : Bool) : ℚ :=
  if long then entryPrice + (entryPrice * profitInPercent) / 100 / leverage
  else entryPrice - (entryPrice * profitInPercent) / 100 / leverage

/-- `isLiquidated` (utils.ts line 93). -/
def isLiquidated (candle : PriceData) (liquidationPrice : ℚ) (long : Bool) : Bool :=
  if long then decide (candle.low ≤ liquidationPrice)
  else decide (candle.high ≥ liquidationPrice)

/-- `isProfitTaken` (utils.ts line 103). -/
def isProfitTaken (candle : PriceData) (profitLimitPrice : ℚ) (long : Bool) : Bool :=
  if long then decide (candle.high ≥ profitLimitPrice)
  else decide (candle.low ≤ profitLimitPrice)

/-! ## `dcaWithLeverage` (index.ts line 455)

The outer `for` loop visits `i = 0, f, 2f, …` while `i + f < data.length`
(`f = buyFrequencyInHours`); these are exactly the multiples of `f` whose
next period fits in the series.  The set is computed up front as
`entryIndices`: for `f ≥ 1` it is a faithful rendering of the loop (for
`f = 0` the JavaScript loop never terminates, so theorems that need
faithfulness there carry a `0 < f` hypothesis). -/

/-- Indices at which `dcaWithLeverage` opens a trade. -/
def entryIndices (buyFrequencyInHours seriesLength : ℕ) : List ℕ :=
  (List.range seriesLength).filter
    (fun i => (i % buyFrequencyInHours == 0) && decide (i + buyFrequencyInHours < seriesLength))

/-- Number of entry events whose exit index `i + tradeDurationInHours` still
lies inside the series. -/
def resolvableEntryCount (buyFrequencyInHours tradeDurationInHours seriesLength : ℕ) : ℕ :=
  ((entryIndices buyFrequencyInHours seriesLength).filter
    (fun i => decide (i + tradeDurationInHours < seriesLength))).length

/-- The three terminal states of one trade (index.ts lines 509-525:
`liquidationsCount`, `takeProfitsCount`, `closedPositionsCount`). -/
inductive Outcome
  | liquidated
  | profitTaken
  | timeExpired
deriving DecidableEq, Repr

/-- The inner monitoring loop `for (j = i + 1; j <= exitIndex; j++)`
(index.ts line 509), with `n` bars left to scan and `j` the current index.
`data[j]` past the end of the array is `undefined` in JavaScript and
`isLiquidated` then throws (`candle.low` on `undefined`): modelled as
`none`.  Liquidation is tested before profit-taking on every bar, and the
first bar satisfying either test ends the scan. -/
def scanWindow (data : List PriceData) (liquidationPrice profitLimitPrice : ℚ)
    (long : Bool) : ℕ → ℕ → Option Outcome
  | 0, _ => some Outcome.timeExpired
  | n + 1, j =>
    match data[j]? with
    | none => none
    | some candle =>
      if isLiquidated candle liquidationPrice long then some Outcome.liquidated
      else if isProfitTaken candle profitLimitPrice long then some Outcome.profitTaken
      else scanWindow data liquidationPrice profitLimitPrice long n (j + 1)

/-- Exit settlement of a non-liquidated trade (index.ts lines 528-551):
sell at the profit-limit price or at the exit bar close, add back the
committed capital, and convert at the exit bar close.  `data[exitIndex]`
out of range is a thrown `TypeError` in the source: `none`. -/
def settleExit (data : List PriceData) (btcBought entryPrice buyAmount profitLimitPrice : ℚ)
    (long profitTaken : Bool) (exitIndex : ℕ) : Option ℚ :=
  match data[exitIndex]? with
  | none => none
  | some exitCandle =>
    let exitSoldAmountInUSD :=
      calculateExitSoldInUSD btcBought profitTaken profitLimitPrice exitCandle
    let profitOrLoss :=
      calculateProfitOrLoss exitSoldAmountInUSD btcBought entryPrice long
    let remaningAmount := calculateRemainingAmount profitOrLoss buyAmount
    some (remaningAmount / exitCandle.close)

/-- One iteration of the outer loop of `dcaWithLeverage` for the entry at
index `i`: the resolved outcome and the wallet increment (0 for a
liquidation, which reinvests nothing). -/
def runEntry (data : List PriceData) (buyAmount : ℚ) (tradeDurationInHours : ℕ)
    (leverage profitInPercent : ℚ) (long : Bool) (i : ℕ) : Option (Outcome × ℚ) :=
  match data[i]? with
  | none => none
  | some entryCandle =>
    let entryPrice := entryCandle.open_
    let btcBought := buyAmount * leverage / entryPrice
    let liquidationPrice := calculateLiquidationPrice entryPrice leverage long
    let profitLimitPrice := calculateProfitLimit entryPrice profitInPercent leverage long
    match scanWindow data liquidationPrice profitLimitPrice long tradeDurationInHours (i + 1) with
    | none => none
    | some Outcome.liquidated => some (Outcome.liquidated, 0)
    | some Outcome.profitTaken =>
      (settleExit data btcBought entryPrice buyAmount profitLimitPrice long true
        (i + tradeDurationInHours)).map (fun inc => (Outcome.profitTaken, inc))
    | some Outcome.timeExpired =>
      (settleExit data btcBought entryPrice buyAmount profitLimitPrice long false
        (i + tradeDurationInHours)).map (fun inc => (Outcome.timeExpired, inc))

/-- Return value of `dcaWithLeverage` (index.ts lines 554-559). -/
structure SimulationResult where
  wallet : ℚ
  liquidationsCount : ℕ
  takeProfitsCount : ℕ
  closedPositionsCount : ℕ
deriving DecidableEq, Repr

/-- Folding one entry outcome into the running aggregate: exactly one of the
three counters is incremented per resolved trade. -/
def accumulateEntry (acc : SimulationResult) (o : Outcome) (inc : ℚ) : SimulationResult :=
  ⟨acc.wallet + inc,
   acc.liquidationsCount + (if o = Outcome.liquidated then 1 else 0),
   acc.takeProfitsCount + (if o = Outcome.profitTaken then 1 else 0),
   acc.closedPositionsCount + (if o = Outcome.timeExpired then 1 else 0)⟩

/-- `dcaWithLeverage` (index.ts line 455).  A thrown exception anywhere in
the run aborts the whole call in the source, hence the monadic fold over
`Option`. -/
def dcaWithLeverage (data : List PriceData) (buyFrequencyInHours : ℕ) (buyAmount : ℚ)
    (tradeDurationInHours : ℕ) (leverage profitInPercent : ℚ) (long : Bool) :
    Option SimulationResult :=
  (entryIndices buyFrequencyInHours data.length).foldlM
    (fun acc i =>
      (runEntry data buyAmount tradeDurationInHours leverage profitInPercent long i).map
        (fun ow => accumulateEntry acc ow.1 ow.2))
    ⟨0, 0, 0, 0⟩

/-! ## `simulateEveryLeverages` (index.ts line 649)

One row of `leverageResults`.  The source stores `wallet.toFixed(4)` and
`diffenceInPercentage.toFixed(2)` as strings for display; the embedding
keeps the exact computed numbers (`btcAccumulated`,
`diffenceInPercentage`) and applies the 2-decimal rounding where the
source actually uses it numerically: in the sort comparator, whose
string subtraction coerces the formatted delta back to a number. -/
structure ResultRow where
  leverage : ℚ
  autoTakeProfitInPercent : ℚ
  btcAccumulated : ℚ
  closedPositions : ℕ
  liquidations : ℕ
  takeProfits : ℕ
  diffenceInPercentage : ℚ
deriving DecidableEq, Repr

/-- JavaScript `x.toFixed(2)` read back as a number: round to the nearest
multiple of 1/100, ties towards the larger value (ECMA-262 `toFixed` picks
the larger candidate integer on a tie). -/
def toFixed2 (q : ℚ) : ℚ := (⌊q * 100 + 1 / 2⌋ : ℚ) / 100

/-- The numeric value the sort comparator of index.ts line 689 actually
compares: the delta rounded by `toFixed(2)`. -/
def sortKey (row : ResultRow) : ℚ := toFixed2 row.diffenceInPercentage

/-- Row order produced by the comparator
`(a, b) => b[delta] - a[delta]`: descending in the rounded delta. -/
def rowLE (a b : ResultRow) : Prop := sortKey b ≤ sortKey a

instance : DecidableRel rowLE := fun a b => inferInstanceAs (Decidable (sortKey b ≤ sortKey a))

instance : IsTotal ResultRow rowLE := ⟨fun a b => le_total (sortKey b) (sortKey a)⟩

instance : IsTrans ResultRow rowLE := ⟨fun _ _ _ h h2 => le_trans h2 h⟩

/-- `leverageResults.sort(...)` (index.ts line 689).  `Array.prototype.sort`
with a consistent comparator is a stable sort for that order; a stable
insertion sort (insert each earlier element in front of the later elements
it ties with) produces the same list. -/
def sortRows (rows : List ResultRow) : List ResultRow := rows.insertionSort rowLE

/-- Sequential evaluation of the grid cells.  An exception thrown by any
cell propagates out of `simulateEveryLeverages` in the source (there is no
try/catch), so the first failing cell aborts the whole sweep: `none`. -/
def mapCells (f : ℚ × ℚ → Option ResultRow) : List (ℚ × ℚ) → Option (List ResultRow)
  | [] => some []
  | cell :: rest =>
    match f cell with
    | none => none
    | some row =>
      match mapCells f rest with
      | none => none
      | some rows => some (row :: rows)

/-- The Cartesian product of the two parameter ranges, in the nested-loop
order of index.ts lines 658-659 (leverage outer, profit target inner). -/
def gridCells : List ℚ → List ℚ → List (ℚ × ℚ)
  | [], _ => []
  | l :: ls, profitTargets =>
    profitTargets.map (fun p => (l, p)) ++ gridCells ls profitTargets

/-- Body of the grid loop (index.ts lines 660-685): run the simulator for
one `(leverage, profitTarget)` cell — `long` defaulted to `true` as at the
call site — and build the result row with
`diffenceInPercentage = (wallet / dcaClassicWallet) * 100 - 100`. -/
def runCell (filteredData : List PriceData) (dcaClassicWallet : ℚ)
    (buyFrequencyInHours : ℕ) (dcaAmount : ℚ) (longDurationInHours : ℕ)
    (leverage profitTarget : ℚ) : Option ResultRow :=
  (dcaWithLeverage filteredData buyFrequencyInHours dcaAmount longDurationInHours
      leverage profitTarget true).map
    (fun res =>
      ⟨leverage, profitTarget, res.wallet, res.closedPositionsCount,
       res.liquidationsCount, res.takeProfitsCount,
       (res.wallet / dcaClassicWallet) * 100 - 100⟩)

/-- The grid-sweep orchestrator over explicit parameter ranges (§4.3 of the
spec: `sweep(series, baselineUnits, shape, leverageRange, profitRange)`).
`simulateEveryLeverages` is this with the ranges hard-coded at index.ts
lines 658-659. -/
def sweepGrid (leverages profitTargets : List ℚ) (filteredData : List PriceData)
    (dcaClassicWallet : ℚ) (buyFrequencyInHours : ℕ) (dcaAmount : ℚ)
    (longDurationInHours : ℕ) : Option (List ResultRow) :=
  (mapCells
      (fun cell => runCell filteredData dcaClassicWallet buyFrequencyInHours
        dcaAmount longDurationInHours cell.1 cell.2)
      (gridCells leverages profitTargets)).map sortRows

/-- Leverage range of the source grid: `for (i = 5; i <= 100; i++)`. -/
def gridLeverages : List ℚ := (List.range 96).map (fun k => 5 + (k : ℚ))

/-- Profit-target range of the source grid: `for (j = 50; j <= 1000; j += 50)`. -/
def gridProfitTargets : List ℚ := (List.range 20).map (fun k => 50 * ((k : ℚ) + 1))

/-- `simulateEveryLeverages` (index.ts line 649): the sweep over the
hard-coded 96 × 20 grid. -/
def simulateEveryLeverages (filteredData : List PriceData) (dcaClassicWallet : ℚ)
    (buyFrequencyInHours : ℕ) (dcaAmount : ℚ) (longDurationInHours : ℕ) :
    Option (List ResultRow) :=
  sweepGrid gridLeverages gridProfitTargets filteredData dcaClassicWallet
    buyFrequencyInHours dcaAmount longDurationInHours

/-! ## Concrete candle series used to instantiate the theorems -/

/-- The end-to-end scenario of spec §8: opens 100/110/90/120, closes
105/100/95/130; bar 1 carries the high (110) that triggers the profit
target of the entry at bar 0. -/
def specBars : List PriceData :=
  [⟨0, 100, 100, 100, 105⟩, ⟨1, 110, 110, 100, 100⟩,
   ⟨2, 90, 90, 90, 95⟩, ⟨3, 120, 120, 120, 130⟩]

/-- Three flat bars at price 100 except a dip to 80 on bar 1 (enough to
liquidate a 10x long entered at 100, whose liquidation price is 90). -/
def dipSeries3 : List PriceData :=
  [⟨0, 100, 100, 100, 100⟩, ⟨1, 100, 100, 80, 100⟩, ⟨2, 100, 100, 100, 100⟩]

/-- Four bars, same dip on bar 1. -/
def dipSeries4 : List PriceData :=
  [⟨0, 100, 100, 100, 100⟩, ⟨1, 100, 100, 80, 100⟩,
   ⟨2, 100, 100, 100, 100⟩, ⟨3, 100, 100, 100, 100⟩]

/-- Three perfectly flat bars at price 100: no leveraged trade can be
liquidated or hit its profit target on them. -/
def flatSeries3 : List PriceData :=
  [⟨0, 100, 100, 100, 100⟩, ⟨1, 100, 100, 100, 100⟩, ⟨2, 100, 100, 100, 100⟩]

/-- Four perfectly flat bars at price 100. -/
def flatSeries4 : List PriceData :=
  [⟨0, 100, 100, 100, 100⟩, ⟨1, 100, 100, 100, 100⟩,
   ⟨2, 100, 100, 100, 100⟩, ⟨3, 100, 100, 100, 100⟩]

/-- Flat bars except an exit close a hair above 100 (by 10⁻⁹): every grid
cell time-expires with a profit so small that all deltas collapse to the
same value under `toFixed(2)`. -/
def tickSeries3 : List PriceData :=
  [⟨0, 100, 100, 100, 100⟩, ⟨1, 100, 100, 100, 100⟩,
   ⟨2, 100, 100, 100, 100 + 1 / 1000000000⟩]

/-! # Theorems -/

/- `Rat.add`, `Rat.sub`, `Rat.mul` and `Rat.inv` are shipped `[irreducible]`;
making them semireducible for this file lets `decide` and `rfl` evaluate the
embedded program on the concrete candle series below. -/
attribute [local semireducible] Rat.add Rat.sub Rat.mul Rat.inv

/-- Claim C5: for entry price 10000 and leverage 25 the liquidation-price
calculator returns 9600 for a long and 10400 for a short, and in general it
returns `entryPrice * (1 - (100/leverage)/100)` for a long and
`entryPrice * (1 + (100/leverage)/100)` for a short. -/
theorem calculateLiquidationPrice_spec :
    calculateLiquidationPrice 10000 25 true = 9600 ∧
    calculateLiquidationPrice 10000 25 false = 10400 ∧
    ∀ entryPrice leverage : ℚ,
      calculateLiquidationPrice entryPrice leverage true
          = entryPrice * (1 - (100 / leverage) / 100) ∧
      calculateLiquidationPrice entryPrice leverage false
          = entryPrice * (1 + (100 / leverage) / 100) := by
  refine ⟨by norm_num [calculateLiquidationPrice],
          by norm_num [calculateLiquidationPrice],
          fun entryPrice leverage => ⟨?_, ?_⟩⟩ <;>
    simp only [calculateLiquidationPrice, if_true, if_false, Bool.false_eq_true] <;> ring

/-- Claim C6: for entry price 10000, profit target 200 % and leverage 20 the
profit-limit calculator returns 11000 for a long and 9000 for a short, and
in general it returns `entryPrice ± entryPrice * profitTargetPercent / 100
/ leverage` (plus for a long, minus for a short). -/
theorem calculateProfitLimit_spec :
    calculateProfitLimit 10000 200 20 true = 11000 ∧
    calculateProfitLimit 10000 200 20 false = 9000 ∧
    ∀ entryPrice profitInPercent leverage : ℚ,
      calculateProfitLimit entryPrice profitInPercent leverage true
          = entryPrice + entryPrice * profitInPercent / 100 / leverage ∧
      calculateProfitLimit entryPrice profitInPercent leverage false
          = entryPrice - entryPrice * profitInPercent / 100 / leverage := by
  refine ⟨by norm_num [calculateProfitLimit],
          by norm_num [calculateProfitLimit],
          fun entryPrice profitInPercent leverage => ⟨?_, ?_⟩⟩ <;>
    simp [calculateProfitLimit]

/-- Claim C10: for all exit-sale values, unit counts and entry prices, the
profit-or-loss of a short position is the exact negation of that of a long
position. -/
theorem calculateProfitOrLoss_short_neg_long (exitSoldAmountInUSD btcBought entryPrice : ℚ) :
    calculateProfitOrLoss exitSoldAmountInUSD btcBought entryPrice false
      = -calculateProfitOrLoss exitSoldAmountInUSD btcBought entryPrice true := by
  simp only [calculateProfitOrLoss, if_true, if_false, Bool.false_eq_true]
  ring

/-- No entry event exists when the whole series is at most one purchase
period long. -/
theorem entryIndices_eq_nil (buyFrequencyInHours seriesLength : ℕ)
    (h : seriesLength ≤ buyFrequencyInHours) :
    entryIndices buyFrequencyInHours seriesLength = [] := by
  unfold entryIndices
  rw [List.filter_eq_nil_iff]
  intro i hi
  simp only [Bool.and_eq_true, beq_iff_eq, decide_eq_true_eq, not_and]
  intro _
  omega

/-- Claim C9: on a series no longer than `buyFrequencyInBars` (including the
empty series) the simulator performs no entry event and returns a zero
wallet and zero counts. -/
theorem dcaWithLeverage_short_series (data : List PriceData) (buyFrequencyInHours : ℕ)
    (buyAmount : ℚ) (tradeDurationInHours : ℕ) (leverage profitInPercent : ℚ) (long : Bool)
    (h : data.length ≤ buyFrequencyInHours) :
    dcaWithLeverage data buyFrequencyInHours buyAmount tradeDurationInHours
      leverage profitInPercent long = some ⟨0, 0, 0, 0⟩ := by
  unfold dcaWithLeverage
  rw [entryIndices_eq_nil _ _ h]
  rfl

/-- Claim C9, witnessed on the empty series. -/
theorem dcaWithLeverage_short_series_witness :
    dcaWithLeverage [] 3 100 5 10 100 true = some ⟨0, 0, 0, 0⟩ :=
  dcaWithLeverage_short_series [] 3 100 5 10 100 true (by decide)

/-- Claim C3: scanning the monitoring window, if the bars at offsets
`0, …, k-1` after the start index trigger neither condition and the bar at
offset `k` (inside the window of `n` bars) satisfies the liquidation
condition — whether or not it simultaneously satisfies the profit-target
condition — the trade resolves as LIQUIDATED on that first triggering bar. -/
theorem scanWindow_liquidation_priority (data : List PriceData)
    (liquidationPrice profitLimitPrice : ℚ) (long : Bool) :
    ∀ (k n j : ℕ) (c : PriceData), k < n →
      (∀ m, m < k → ∃ cm, data[j + m]? = some cm ∧
          isLiquidated cm liquidationPrice long = false ∧
          isProfitTaken cm profitLimitPrice long = false) →
      data[j + k]? = some c →
      isLiquidated c liquidationPrice long = true →
      scanWindow data liquidationPrice profitLimitPrice long n j = some Outcome.liquidated := by
  intro k
  induction k with
  | zero =>
    intro n j c hk hbefore hc hliq
    match n, hk with
    | n + 1, _ =>
      rw [Nat.add_zero] at hc
      simp only [scanWindow]
      rw [hc]
      simp [hliq]
  | succ k ih =>
    intro n j c hk hbefore hc hliq
    match n, hk with
    | n + 1, hk =>
      obtain ⟨c0, hc0, hl0, hp0⟩ := hbefore 0 (Nat.succ_pos k)
      rw [Nat.add_zero] at hc0
      simp only [scanWindow]
      rw [hc0]
      simp only [hl0, hp0, Bool.false_eq_true, if_false]
      refine ih n (j + 1) c (Nat.lt_of_succ_lt_succ hk) ?_ ?_ hliq
      · intro m hm
        obtain ⟨cm, hcm, hlm, hpm⟩ := hbefore (m + 1) (Nat.succ_lt_succ hm)
        refine ⟨cm, ?_, hlm, hpm⟩
        rw [show j + 1 + m = j + (m + 1) by omega]
        exact hcm
      · rw [show j + 1 + k = j + (k + 1) by omega]
        exact hc

/-- Claim C3, witnessed: bar 1 dips to 80 (through the liquidation price
90) and spikes to 120 (through the profit limit 110) at once; the scan
resolves it as liquidated. -/
theorem scanWindow_liquidation_priority_witness :
    scanWindow [⟨0, 100, 100, 100, 100⟩, ⟨1, 100, 120, 80, 100⟩] 90 110 true 1 1
      = some Outcome.liquidated :=
  scanWindow_liquidation_priority _ 90 110 true 0 1 1 ⟨1, 100, 120, 80, 100⟩
    (by decide) (fun m hm => absurd hm (Nat.not_lt_zero m)) (by decide) (by decide)

/-- Claim C4: a resolved trade that is not a liquidation settles with exit
value `unitsAcquired × (profitTaken ? profitLimitPrice : exitClose)`,
remaining capital equal to the direction-adjusted profit-or-loss plus
`buyAmount`, and adds exactly `remainingCapital / exitClose` units to the
wallet; a liquidated trade adds nothing. -/
theorem runEntry_settlement (data : List PriceData) (buyAmount : ℚ)
    (tradeDurationInHours : ℕ) (leverage profitInPercent : ℚ) (long : Bool)
    (i : ℕ) (o : Outcome) (w : ℚ)
    (h : runEntry data buyAmount tradeDurationInHours leverage profitInPercent long i
          = some (o, w)) :
    (o = Outcome.liquidated → w = 0) ∧
    (∀ entryCandle exitCandle, o ≠ Outcome.liquidated →
      data[i]? = some entryCandle →
      data[i + tradeDurationInHours]? = some exitCandle →
      w = (let unitsAcquired := buyAmount * leverage / entryCandle.open_
           let exitValueInCapital := unitsAcquired *
             (if o = Outcome.profitTaken then
                calculateProfitLimit entryCandle.open_ profitInPercent leverage long
              else exitCandle.close)
           let profitOrLoss :=
             if long then exitValueInCapital - unitsAcquired * entryCandle.open_
             else unitsAcquired * entryCandle.open_ - exitValueInCapital
           (profitOrLoss + buyAmount)) / exitCandle.close) := by
  unfold runEntry at h
  split at h
  · exact absurd h (by simp)
  next entryCandle hentry =>
    simp only [] at h
    split at h
    · exact absurd h (by simp)
    · -- liquidated branch
      simp only [Option.some_inj, Prod.mk.injEq] at h
      obtain ⟨rfl, rfl⟩ := h
      exact ⟨fun _ => rfl, fun _ _ hne _ _ => absurd rfl hne⟩
    · -- profit-taken branch
      rw [Option.map_eq_some'] at h
      obtain ⟨inc, hset, heq⟩ := h
      simp only [Prod.mk.injEq] at heq
      obtain ⟨rfl, rfl⟩ := heq
      refine ⟨(fun hco => nomatch hco), (fun ec xc _ hec hxc => ?_)⟩
      rw [hentry, Option.some_inj] at hec
      obtain rfl := hec
      unfold settleExit at hset
      split at hset
      · exact absurd hset (by simp)
      next xc0 hxc0 =>
        rw [hxc0, Option.some_inj] at hxc
        obtain rfl := hxc
        rw [Option.some_inj] at hset
        simp only [calculateExitSoldInUSD, calculateProfitOrLoss,
          calculateRemainingAmount, if_true] at hset
        simp only [reduceIte]
        exact hset.symm
    · -- time-expired branch
      rw [Option.map_eq_some'] at h
      obtain ⟨inc, hset, heq⟩ := h
      simp only [Prod.mk.injEq] at heq
      obtain ⟨rfl, rfl⟩ := heq
      refine ⟨(fun hco => nomatch hco), (fun ec xc _ hec hxc => ?_)⟩
      rw [hentry, Option.some_inj] at hec
      obtain rfl := hec
      unfold settleExit at hset
      split at hset
      · exact absurd hset (by simp)
      next xc0 hxc0 =>
        rw [hxc0, Option.some_inj] at hxc
        obtain rfl := hxc
        rw [Option.some_inj] at hset
        simp only [calculateExitSoldInUSD, calculateProfitOrLoss,
          calculateRemainingAmount, Bool.false_eq_true, if_false] at hset
        simp only [reduceIte]
        exact hset.symm

/-- Claim C4, witnessed on the spec §8 scenario: the entry at bar 0 of
`specBars` (10x long, 100 committed) is resolved by profit-taking on bar 1
and reinvests `(10 × (110 − 100) + 100) / 100 = 2` units. -/
theorem runEntry_settlement_witness :
    (2 : ℚ) = ((100 : ℚ) * 10 / 100 * calculateProfitLimit 100 100 10 true
        - 100 * 10 / 100 * 100 + 100) / 100 := by
  have h := (runEntry_settlement specBars 100 1 10 100 true 0 Outcome.profitTaken 2
      (by decide)).2 ⟨0, 100, 100, 100, 105⟩ ⟨1, 110, 110, 100, 100⟩
      (by decide) (by decide) (by decide)
  simpa using h

/-- Claim C1 (counterexample): in `dipSeries3` (3 bars) with buy frequency 2
and trade duration 5, the single entry at bar 0 has exit index 5, beyond
the series — yet it is counted as a liquidation (bar 1 dips through the
10x liquidation price), so it is not excluded from `liquidationsCount`. -/
theorem dcaWithLeverage_oor_entry_counted :
    dcaWithLeverage dipSeries3 2 100 5 10 100 true = some ⟨0, 1, 0, 0⟩ ∧
    (⟨0, 1, 0, 0⟩ : SimulationResult) ≠ ⟨0, 0, 0, 0⟩ :=
  ⟨by decide, by decide⟩

/-- Claim C1 (amended): an entry whose exit index falls beyond the series is
not excluded from aggregation.  If it resolves at all, it resolves as a
liquidation on an in-range bar (counted, contributing nothing to the
wallet); in every other case the simulator aborts on the out-of-range
access instead of completing.  In particular such an entry is never
recorded as TIME_EXPIRED. -/
theorem runEntry_oor (data : List PriceData) (buyAmount : ℚ) (tradeDurationInHours : ℕ)
    (leverage profitInPercent : ℚ) (long : Bool) (i : ℕ) (o : Outcome) (w : ℚ)
    (hoor : data.length ≤ i + tradeDurationInHours)
    (h : runEntry data buyAmount tradeDurationInHours leverage profitInPercent long i
          = some (o, w)) :
    o = Outcome.liquidated ∧ w = 0 := by
  unfold runEntry at h
  split at h
  · exact absurd h (by simp)
  next entryCandle hentry =>
    simp only [] at h
    split at h
    · exact absurd h (by simp)
    · simp only [Option.some_inj, Prod.mk.injEq] at h
      obtain ⟨rfl, rfl⟩ := h
      exact ⟨rfl, rfl⟩
    · rw [Option.map_eq_some'] at h
      obtain ⟨inc, hset, heq⟩ := h
      unfold settleExit at hset
      rw [List.getElem?_eq_none hoor] at hset
      exact absurd hset (by simp)
    · rw [Option.map_eq_some'] at h
      obtain ⟨inc, hset, heq⟩ := h
      unfold settleExit at hset
      rw [List.getElem?_eq_none hoor] at hset
      exact absurd hset (by simp)

/-- Claim C1 (amended), witnessed on the `dipSeries3` scenario. -/
theorem runEntry_oor_witness : Outcome.liquidated = Outcome.liquidated ∧ (0 : ℚ) = 0 :=
  runEntry_oor dipSeries3 100 5 10 100 true 0 Outcome.liquidated 0 (by decide) (by decide)

/-- One resolved entry bumps the three outcome counters by exactly one in
total. -/
theorem accumulateEntry_counts (acc : SimulationResult) (o : Outcome) (inc : ℚ) :
    (accumulateEntry acc o inc).liquidationsCount
      + (accumulateEntry acc o inc).takeProfitsCount
      + (accumulateEntry acc o inc).closedPositionsCount
    = acc.liquidationsCount + acc.takeProfitsCount + acc.closedPositionsCount + 1 := by
  cases o <;> simp [accumulateEntry] <;> omega

/-- Folding any list of entries that completes adds exactly its length to
the combined outcome count. -/
theorem foldEntries_sum (data : List PriceData) (buyAmount : ℚ) (dur : ℕ)
    (leverage profitInPercent : ℚ) (long : Bool) :
    ∀ (l : List ℕ) (acc r : SimulationResult),
      l.foldlM (fun acc i =>
        (runEntry data buyAmount dur leverage profitInPercent long i).map
          (fun ow => accumulateEntry acc ow.1 ow.2)) acc = some r →
      r.liquidationsCount + r.takeProfitsCount + r.closedPositionsCount
        = acc.liquidationsCount + acc.takeProfitsCount + acc.closedPositionsCount
            + l.length := by
  intro l
  induction l with
  | nil =>
    intro acc r h
    simp only [List.foldlM_nil, pure, Option.some_inj] at h
    subst h
    simp
  | cons i l ih =>
    intro acc r h
    rw [List.foldlM_cons] at h
    cases hre : runEntry data buyAmount dur leverage profitInPercent long i with
    | none => rw [hre] at h; exact absurd h (by simp)
    | some ow =>
      rw [hre] at h
      simp only [Option.map_some, Option.map_some', Option.some_bind, Option.bind_some] at h
      calc r.liquidationsCount + r.takeProfitsCount + r.closedPositionsCount
          = (accumulateEntry acc ow.1 ow.2).liquidationsCount
              + (accumulateEntry acc ow.1 ow.2).takeProfitsCount
              + (accumulateEntry acc ow.1 ow.2).closedPositionsCount + l.length :=
            ih (accumulateEntry acc ow.1 ow.2) r h
        _ = acc.liquidationsCount + acc.takeProfitsCount + acc.closedPositionsCount
              + (i :: l).length := by rw [accumulateEntry_counts]; simp; omega

/-- Claim C2 (counterexample): in `dipSeries4` (4 bars) with buy frequency 3
and trade duration 5, the completed run counts one outcome (the entry at
bar 0 liquidates on bar 1), but no entry event has a resolvable exit
index, so the counts do not sum to that number. -/
theorem dcaWithLeverage_outcome_sum_counterexample :
    (dcaWithLeverage dipSeries4 3 100 5 10 100 true).map
        (fun r => r.liquidationsCount + r.takeProfitsCount + r.closedPositionsCount)
      = some 1 ∧
    resolvableEntryCount 3 5 dipSeries4.length = 0 :=
  ⟨by decide, by decide⟩

/-- Claim C2 (amended): after a completed run (one that does not abort on an
out-of-range access), `liquidationsCount + takeProfitsCount +
closedPositionsCount` equals the number of ALL entry events — including any
that liquidate early despite an out-of-range exit index; whenever
`tradeDurationInBars ≤ buyFrequencyInBars`, every entry event has a
resolvable exit index, and this agrees with the count claimed. -/
theorem dcaWithLeverage_outcome_exhaustive (data : List PriceData) (f : ℕ) (amt : ℚ)
    (dur : ℕ) (lev prof : ℚ) (long : Bool) (r : SimulationResult)
    (_hf : 0 < f)
    (h : dcaWithLeverage data f amt dur lev prof long = some r) :
    r.liquidationsCount + r.takeProfitsCount + r.closedPositionsCount
      = (entryIndices f data.length).length ∧
    (dur ≤ f → resolvableEntryCount f dur data.length
      = (entryIndices f data.length).length) := by
  constructor
  · unfold dcaWithLeverage at h
    have := foldEntries_sum data amt dur lev prof long (entryIndices f data.length)
      ⟨0, 0, 0, 0⟩ r h
    simpa using this
  · intro hdf
    unfold resolvableEntryCount
    have hall : ∀ i ∈ entryIndices f data.length,
        decide (i + dur < data.length) = true := by
      intro i hi
      unfold entryIndices at hi
      rw [List.mem_filter] at hi
      obtain ⟨-, hp⟩ := hi
      simp only [Bool.and_eq_true, decide_eq_true_eq] at hp
      simp only [decide_eq_true_eq]
      omega
    rw [List.filter_eq_self.mpr hall]

/-- Claim C2 (amended), witnessed: the run on `flatSeries3` (frequency 2,
duration 1) completes with one time-expired entry, matching the single
entry event, whose exit index is resolvable since 1 ≤ 2. -/
theorem dcaWithLeverage_outcome_exhaustive_witness :
    0 + 0 + 1 = (entryIndices 2 flatSeries3.length).length ∧
    (1 ≤ 2 → resolvableEntryCount 2 1 flatSeries3.length
      = (entryIndices 2 flatSeries3.length).length) :=
  dcaWithLeverage_outcome_exhaustive flatSeries3 2 100 1 10 100 true ⟨1, 0, 0, 1⟩
    (by decide) (by decide)

/-- A cell whose simulation returns normally determines its result row: the
row records the cell parameters, the simulated wallet, and the delta
computed as `(wallet / baseline) * 100 - 100`. -/
theorem runCell_inv (data : List PriceData) (baseline : ℚ) (f : ℕ) (amt : ℚ)
    (dur : ℕ) (l p : ℚ) (row : ResultRow)
    (h : runCell data baseline f amt dur l p = some row) :
    row.leverage = l ∧ row.autoTakeProfitInPercent = p ∧
    (dcaWithLeverage data f amt dur l p true).map SimulationResult.wallet
      = some row.btcAccumulated ∧
    row.diffenceInPercentage = row.btcAccumulated / baseline * 100 - 100 := by
  unfold runCell at h
  cases hd : dcaWithLeverage data f amt dur l p true with
  | none => rw [hd] at h; exact absurd h (by simp)
  | some res =>
    rw [hd] at h
    simp only [Option.map_some, Option.map_some', Option.some_inj] at h
    subst h
    simp

/-- Every row of a completed cell evaluation comes from some grid cell. -/
theorem mapCells_mem (g : ℚ × ℚ → Option ResultRow) :
    ∀ (cells : List (ℚ × ℚ)) (rows : List ResultRow), mapCells g cells = some rows →
      ∀ row ∈ rows, ∃ cell, cell ∈ cells ∧ g cell = some row := by
  intro cells
  induction cells with
  | nil =>
    intro rows h row hrow
    simp only [mapCells, Option.some_inj] at h
    subst h
    exact absurd hrow (List.not_mem_nil row)
  | cons c rest ih =>
    intro rows h row hrow
    unfold mapCells at h
    cases hg : g c with
    | none => rw [hg] at h; exact absurd h (by simp)
    | some r0 =>
      rw [hg] at h
      cases hrest : mapCells g rest with
      | none => rw [hrest] at h; exact absurd h (by simp)
      | some rs =>
        rw [hrest] at h
        simp only [Option.some_inj] at h
        subst h
        rcases List.mem_cons.mp hrow with rfl | hmem
        · exact ⟨c, List.mem_cons_self c rest, hg⟩
        · obtain ⟨cell, hc1, hc2⟩ := ih rs hrest row hmem
          exact ⟨cell, List.mem_cons_of_mem c hc1, hc2⟩

/-- A one-cell sweep is the one cell's row (a singleton list sorts to
itself). -/
theorem sweepGrid_singleton (l p : ℚ) (data : List PriceData) (baseline : ℚ)
    (f : ℕ) (amt : ℚ) (dur : ℕ) :
    sweepGrid [l] [p] data baseline f amt dur
      = (runCell data baseline f amt dur l p).map (fun r0 => [r0]) := by
  unfold sweepGrid
  rw [show gridCells [l] [p] = [(l, p)] from rfl]
  cases hg : runCell data baseline f amt dur l p with
  | none => simp [mapCells, hg]
  | some r0 => simp [mapCells, hg, sortRows, List.insertionSort, List.orderedInsert]

/-- Claim C7 (amended): every emitted row carries the delta computed as
`(finalCapitalInUnits / baselineUnits) × 100 − 100` from its own cell's
simulation, and the returned sequence is sorted in descending order of the
ROUNDED delta (`toFixed(2)`, the value the sort comparator actually
compares — `rowLE`), not necessarily of the exact delta; a single-cell
grid whose wallet equals a nonzero baseline gets delta 0. -/
theorem sweepGrid_spec :
    (∀ (leverages profitTargets : List ℚ) (data : List PriceData) (baseline : ℚ)
        (f : ℕ) (amt : ℚ) (dur : ℕ) (rows : List ResultRow),
      sweepGrid leverages profitTargets data baseline f amt dur = some rows →
      (∀ row ∈ rows,
          row.diffenceInPercentage = row.btcAccumulated / baseline * 100 - 100 ∧
          (dcaWithLeverage data f amt dur row.leverage row.autoTakeProfitInPercent true).map
              SimulationResult.wallet = some row.btcAccumulated) ∧
      rows.Sorted rowLE) ∧
    (∀ (l p : ℚ) (data : List PriceData) (baseline : ℚ) (f : ℕ) (amt : ℚ) (dur : ℕ)
        (row : ResultRow),
      sweepGrid [l] [p] data baseline f amt dur = some [row] →
      baseline ≠ 0 → row.btcAccumulated = baseline →
      row.diffenceInPercentage = 0) := by
  constructor
  · intro leverages profitTargets data baseline f amt dur rows h
    unfold sweepGrid at h
    cases hm : mapCells (fun cell => runCell data baseline f amt dur cell.1 cell.2)
        (gridCells leverages profitTargets) with
    | none => rw [hm] at h; exact absurd h (by simp)
    | some rows0 =>
      rw [hm] at h
      simp only [Option.map_some, Option.map_some', Option.some_inj] at h
      subst h
      constructor
      · intro row hrow
        have hrow0 : row ∈ rows0 := by
          unfold sortRows at hrow
          rwa [List.mem_insertionSort] at hrow
        obtain ⟨cell, hcm, hcr⟩ := mapCells_mem _ _ rows0 hm row hrow0
        obtain ⟨h1, h2, h3, h4⟩ := runCell_inv _ _ _ _ _ _ _ _ hcr
        refine ⟨h4, ?_⟩
        rw [h1, h2]
        exact h3
      · unfold sortRows
        exact List.sorted_insertionSort rowLE rows0
  · intro l p data baseline f amt dur row h hb hwallet
    rw [sweepGrid_singleton] at h
    cases hg : runCell data baseline f amt dur l p with
    | none => rw [hg] at h; exact absurd h (by simp)
    | some r0 =>
      rw [hg] at h
      simp only [Option.map_some, Option.map_some', Option.some_inj,
        List.cons.injEq, and_true] at h
      obtain rfl := h.symm
      obtain ⟨-, -, -, h4⟩ := runCell_inv _ _ _ _ _ _ _ _ hg
      rw [h4, hwallet, div_self hb]
      norm_num

/-- Claim C7 (amended), witnessed on a one-cell grid over `flatSeries3`
whose wallet (1 unit) equals the baseline: the emitted delta is 0. -/
theorem sweepGrid_spec_witness :
    ResultRow.diffenceInPercentage ⟨10, 100, 1, 1, 0, 0, 0⟩ = 0 :=
  sweepGrid_spec.2 10 100 flatSeries3 1 2 100 1 ⟨10, 100, 1, 1, 0, 0, 0⟩
    (by decide) (by decide) (by decide)

/-- Claim C7 (counterexample): on `tickSeries3` with baseline 1 the
leverage-5 and leverage-6 cells produce exact deltas `400/100000000001 <
500/100000000001`, both of which round to `0.00`; the stable sort leaves
them in grid order, so the returned sequence is NOT sorted in descending
order of the exact `deltaPercent`. -/
theorem sweepGrid_exact_delta_order_counterexample :
    (sweepGrid [5, 6] [50] tickSeries3 1 2 100 2).map
        (fun rows => rows.map ResultRow.diffenceInPercentage)
      = some [400 / 100000000001, 500 / 100000000001] ∧
    ¬ List.Sorted (fun a b : ℚ => b ≤ a)
        [400 / 100000000001, (500 : ℚ) / 100000000001] := by
  refine ⟨by decide, fun hs => ?_⟩
  have h1 := List.rel_of_sorted_cons hs ((500 : ℚ) / 100000000001) (by simp)
  norm_num at h1

/-- Claim C8 (counterexample): on `flatSeries4` with buy frequency 3 and
trade duration 5, evaluating a cell faults (out-of-range access at bar 4,
`runCell … = none`), and the sweep returns nothing at all instead of
isolating the fault and producing the other cells' results. -/
theorem simulateEveryLeverages_fault_aborts :
    simulateEveryLeverages flatSeries4 1 3 100 5 = none ∧
    runCell flatSeries4 1 3 100 5 5 50 = none :=
  ⟨by rfl, by decide⟩

/-- A faulting cell anywhere in the list poisons the whole evaluation. -/
theorem mapCells_none (g : ℚ × ℚ → Option ResultRow) :
    ∀ (cells : List (ℚ × ℚ)) (cell : ℚ × ℚ), cell ∈ cells → g cell = none →
      mapCells g cells = none := by
  intro cells
  induction cells with
  | nil => intro c hc _; exact absurd hc (List.not_mem_nil c)
  | cons c0 rest ih =>
    intro c hc hg
    rcases List.mem_cons.mp hc with rfl | hmem
    · unfold mapCells
      rw [hg]
    · cases hg0 : g c0 with
      | none => unfold mapCells; rw [hg0]
      | some row => unfold mapCells; rw [hg0, ih c hmem hg]

/-- Claim C8 (amended): the orchestrator has no per-cell fault isolation —
if any cell of the grid faults, the whole sweep aborts with no results and
no failure report for any cell. -/
theorem sweepGrid_no_fault_isolation (leverages profitTargets : List ℚ)
    (data : List PriceData) (baseline : ℚ) (f : ℕ) (amt : ℚ) (dur : ℕ) (l p : ℚ)
    (hmem : (l, p) ∈ gridCells leverages profitTargets)
    (hfail : runCell data baseline f amt dur l p = none) :
    sweepGrid leverages profitTargets data baseline f amt dur = none := by
  unfold sweepGrid
  rw [mapCells_none _ (gridCells leverages profitTargets) (l, p) hmem hfail]
  rfl

/-- Claim C8 (amended), witnessed on a one-cell grid with the faulting
configuration. -/
theorem sweepGrid_no_fault_isolation_witness :
    sweepGrid [5] [50] flatSeries4 1 3 100 5 = none :=
  sweepGrid_no_fault_isolation [5] [50] flatSeries4 1 3 100 5 5 50
    (by decide) (by decide)

end Kong
